import Mathlib

/-!
A shallow embedding of `source/memtrace.c` (the tracing allocator wrapper of
aws-c-common) together with proofs about it.

Machine integers: `size_t` values are natural numbers reduced modulo `2 ^ 64`
(`sizeTMod`) exactly where the C code can wrap, namely the atomic
fetch-add/fetch-sub on `tracer->allocated`, the `num * size` product in
`s_trace_mem_calloc`, and the `stack_depth - FRAMES_TO_SKIP` subtraction in
`s_alloc_tracer_track`.

Pointers, allocator identities and stack fingerprints are opaque naturals.
Environment inputs of the C code — the wall clock `time(NULL)`, the frame
array returned by `aws_backtrace`, and the fingerprint computed by
`aws_hash_byte_cursor_ptr` — are passed as explicit arguments.

`aws_hash_table` lives in hash_table.c, which is outside the embedded
sources; it is modelled from the spec as an association list (`tblFind`,
`tblRemove`, `tblPut`).
-/

namespace Memtrace

/-- `size_t` arithmetic is modulo `2 ^ 64`. -/
def sizeTMod : Nat := 2 ^ 64

/-- memtrace.c line 67: number of frames skipped in captured call stacks. -/
def FRAMES_TO_SKIP : Nat := 2

/-- `enum aws_mem_trace_level` (declared in the public headers). -/
inductive aws_mem_trace_level
  | AWS_MEMTRACE_NONE
  | AWS_MEMTRACE_BYTES
  | AWS_MEMTRACE_STACKS
deriving DecidableEq

/-- Numeric value of the C enum, used for the order comparisons
`level > AWS_MEMTRACE_BYTES` (line 104) and `level >= AWS_MEMTRACE_BYTES` (line 111). -/
def levelVal : aws_mem_trace_level → Nat
  | .AWS_MEMTRACE_NONE => 0
  | .AWS_MEMTRACE_BYTES => 1
  | .AWS_MEMTRACE_STACKS => 2

/-- `struct alloc_info` (memtrace.c lines 27-31).  `allocatedFrom` is a ghost
field recording the identity of the allocator the record was obtained from
(line 139 allocates it from `tracer->system_allocator`); it has no C
counterpart and no operation branches on it. -/
structure alloc_info where
  size : Nat
  time : Nat
  stack : Nat
  allocatedFrom : Nat
deriving DecidableEq

/-- `struct stack_trace` (lines 44-47), with the same ghost `allocatedFrom`
field (line 162 allocates the record from `tracer->system_allocator`). -/
structure stack_trace where
  depth : Nat
  frames : List Nat
  allocatedFrom : Nat
deriving DecidableEq

/-- `struct alloc_tracer` (lines 54-64).  The two allocator fields hold opaque
allocator identities.  The hash tables are association lists.  `AWS_ZERO_STRUCT`
(line 474) makes the tables empty and `allocated` zero even at level NONE,
where lines 111-129 skip their initialization. -/
structure alloc_tracer where
  allocator : Nat
  system_allocator : Nat
  level : aws_mem_trace_level
  frames_per_stack : Nat
  allocated : Nat
  allocs : List (Nat × alloc_info)
  stacksTable : List (Nat × stack_trace)
deriving DecidableEq

/-- Modelled from the spec: `aws_hash_table_find` (hash_table.c is not among
the embedded sources) — lookup of a key, `none` when absent. -/
def tblFind {α : Type} : List (Nat × α) → Nat → Option α
  | [], _ => none
  | e :: rest, k => if e.1 = k then some e.2 else tblFind rest k

/-- Modelled from the spec: `aws_hash_table_remove_element` — removal of the
entry that a `tblFind` on the same key returns. -/
def tblRemove {α : Type} : List (Nat × α) → Nat → List (Nat × α)
  | [], _ => []
  | e :: rest, k => if e.1 = k then rest else e :: tblRemove rest k

/-- Modelled from the spec: `aws_hash_table_put` on the allocation map.
Spec §4.2: "Under the mutex, insert (address → record) into the allocation
map.  Duplicate keys are a fatal invariant violation."  A duplicate key
aborts (`none`); otherwise the entry is added. -/
def tblPut {α : Type} (m : List (Nat × α)) (k : Nat) (v : α) : Option (List (Nat × α)) :=
  match tblFind m k with
  | some _ => none
  | none => some (m ++ [(k, v)])

/-- Number of entries of the table holding key `k`. -/
def countKey {α : Type} (m : List (Nat × α)) (k : Nat) : Nat :=
  (m.filter (fun e => e.1 == k)).length

/-- The keys of the table are pairwise distinct. -/
def keysNodup {α : Type} (m : List (Nat × α)) : Prop := (m.map Prod.fst).Nodup

/-- Sum of the `size` fields over all entries of the allocation map. -/
def sumSizes (m : List (Nat × alloc_info)) : Nat := (m.map (fun e => e.2.size)).sum

/-- `s_alloc_tracer_init` (lines 94-130).  `backtraceAvailable` is the result
of the probe `aws_backtrace(stack, 1)` on line 102 (zero depth means stack
capture is unsupported and the level is clamped to BYTES).  The tracer starts
from the `AWS_ZERO_STRUCT`-ed state of line 474, so `frames_per_stack` stays 0
unless the level is STACKS, and `allocated` is 0 at every level. -/
def s_alloc_tracer_init (allocator system_allocator : Nat) (level0 : aws_mem_trace_level)
    (frames_per_stack : Nat) (backtraceAvailable : Bool) : alloc_tracer :=
  let level := if backtraceAvailable = false ∧
                  levelVal level0 > levelVal .AWS_MEMTRACE_BYTES
               then .AWS_MEMTRACE_BYTES else level0
  let fps := if level = .AWS_MEMTRACE_STACKS then
      (let f := if frames_per_stack > 128 then 128 else frames_per_stack
       if f ≠ 0 then f else 8)
    else 0
  { allocator := allocator, system_allocator := system_allocator, level := level,
    frames_per_stack := fps, allocated := 0, allocs := [], stacksTable := [] }

/-- `aws_mem_tracer_new` (lines 455-482): when no bookkeeping allocator is
supplied it defaults to `aws_default_allocator()` (`defaultAllocator` is that
allocator's identity), then the joint block is zeroed and
`s_alloc_tracer_init` runs. -/
def aws_mem_tracer_new (allocator : Nat) (system_allocator : Option Nat)
    (defaultAllocator : Nat) (level : aws_mem_trace_level)
    (frames_per_stack : Nat) (backtraceAvailable : Bool) : alloc_tracer :=
  s_alloc_tracer_init allocator (system_allocator.getD defaultAllocator)
    level frames_per_stack backtraceAvailable

/-- The `alloc_info` record built by `s_alloc_tracer_track` (lines 139-152):
`aws_mem_calloc(tracer->system_allocator, 1, sizeof ...)` zero-fills it, then
`size` and `time` are set; `alloc->stack = stack_id` is only executed at level
STACKS when the backtrace was nonempty (lines 143-152), otherwise the field
keeps its calloc-zero. -/
def trackRecord (tracer : alloc_tracer) (size now : Nat) (stack_frames : List Nat)
    (stack_id : Nat) : alloc_info :=
  { size := size, time := now,
    stack := if tracer.level = .AWS_MEMTRACE_STACKS ∧ stack_frames.length ≠ 0
             then stack_id else 0,
    allocatedFrom := tracer.system_allocator }

/-- The stack-registry update performed by `s_alloc_tracer_track`
(lines 143-174): at level STACKS with a nonempty backtrace,
`aws_hash_table_create` finds-or-inserts the fingerprint; a fresh fingerprint
gets a new `stack_trace` whose `depth` is `stack_depth - FRAMES_TO_SKIP`
computed in `size_t` arithmetic (line 170) and whose frames skip the first
`FRAMES_TO_SKIP` captured frames (lines 166-169). -/
def trackStacks (tracer : alloc_tracer) (stack_frames : List Nat)
    (stack_id : Nat) : List (Nat × stack_trace) :=
  if tracer.level = .AWS_MEMTRACE_STACKS ∧ stack_frames.length ≠ 0 then
    match tblFind tracer.stacksTable stack_id with
    | some _ => tracer.stacksTable
    | none => tracer.stacksTable ++ [(stack_id,
        { depth := (stack_frames.length + sizeTMod - FRAMES_TO_SKIP) % sizeTMod,
          frames := stack_frames.drop FRAMES_TO_SKIP,
          allocatedFrom := tracer.system_allocator })]
  else tracer.stacksTable

/-- `s_alloc_tracer_track` (lines 132-180).  Early return at level NONE;
otherwise `aws_atomic_fetch_add(&tracer->allocated, size)` (size_t, wraps),
record construction, the STACKS-branch registry update, and finally the
`aws_hash_table_put` of (ptr → record), whose duplicate-key abort is the
`none` of `tblPut`.  `now` is `time(NULL)` (line 141), `stack_frames` the
array filled by `aws_backtrace` (line 146) and `stack_id` the fingerprint of
line 151. -/
def s_alloc_tracer_track (tracer : alloc_tracer) (ptr size now : Nat)
    (stack_frames : List Nat) (stack_id : Nat) : Option alloc_tracer :=
  if tracer.level = .AWS_MEMTRACE_NONE then some tracer
  else
    (tblPut tracer.allocs ptr (trackRecord tracer size now stack_frames stack_id)).map
      (fun m2 =>
        { tracer with
          allocated := (tracer.allocated + size) % sizeTMod,
          allocs := m2,
          stacksTable := trackStacks tracer stack_frames stack_id })

/-- `s_alloc_tracer_untrack` (lines 182-201).  Early return at level NONE;
the find never fails (its fatal assert checks only the call's success), and an
absent key is deliberately tolerated.  A present key has its `size` subtracted
from `allocated` with `aws_atomic_fetch_sub` (size_t, wraps) and its entry
removed. -/
def s_alloc_tracer_untrack (tracer : alloc_tracer) (ptr : Nat) : alloc_tracer :=
  if tracer.level = .AWS_MEMTRACE_NONE then tracer
  else
    match tblFind tracer.allocs ptr with
    | none => tracer
    | some alloc =>
        { tracer with
          allocated := (tracer.allocated + (sizeTMod - alloc.size % sizeTMod)) % sizeTMod,
          allocs := tblRemove tracer.allocs ptr }

/-- A record of one `aws_mem_release` of tracer metadata: which allocator
performed the free and which allocator the memory had come from. -/
structure FreeEvent where
  freedBy : Nat
  allocatedFrom : Nat
deriving DecidableEq

/-- `s_destroy_alloc` (lines 82-86): the hash-table destructor for allocation
records obtains `aws_default_allocator()` (whose identity is
`defaultAllocator`) and releases the record through it. -/
def s_destroy_alloc (defaultAllocator : Nat) (alloc : alloc_info) : FreeEvent :=
  { freedBy := defaultAllocator, allocatedFrom := alloc.allocatedFrom }

/-- `s_destroy_stacktrace` (lines 88-92): the hash-table destructor for stack
records, likewise releasing through `aws_default_allocator()`. -/
def s_destroy_stacktrace (defaultAllocator : Nat) (stack : stack_trace) : FreeEvent :=
  { freedBy := defaultAllocator, allocatedFrom := stack.allocatedFrom }

/-- `aws_mem_tracer_bytes` (lines 508-511): an atomic load of `allocated`. -/
def aws_mem_tracer_bytes (tracer : alloc_tracer) : Nat := tracer.allocated

/-- `aws_mem_tracer_count` (lines 513-519): the entry count of the allocation
map, read under the mutex. -/
def aws_mem_tracer_count (tracer : alloc_tracer) : Nat := tracer.allocs.length

/-- The four-slot allocator vtable (`struct aws_allocator`), as a deterministic
state machine over an abstract heap state `σ`.  `mem_acquire`/`mem_calloc`
return the new state and the address; `mem_realloc` takes the address with the
old and new sizes and returns the possibly-moved address. -/
structure aws_allocator (σ : Type) where
  mem_acquire : σ → Nat → σ × Nat
  mem_release : σ → Nat → σ
  mem_calloc : σ → Nat → Nat → σ × Nat
  mem_realloc : σ → Nat → Nat → Nat → σ × Nat

/-- `s_trace_mem_acquire` (lines 423-428): acquire from the inner allocator,
then track the returned pointer with the requested size. -/
def s_trace_mem_acquire {σ : Type} (U : aws_allocator σ) (tracer : alloc_tracer)
    (s : σ) (size now : Nat) (stack_frames : List Nat) (stack_id : Nat) :
    Option (alloc_tracer × σ × Nat) :=
  let r := U.mem_acquire s size
  (s_alloc_tracer_track tracer r.2 size now stack_frames stack_id).map
    (fun t2 => (t2, r.1, r.2))

/-- `s_trace_mem_release` (lines 430-434): untrack the pointer, then release
it through the inner allocator. -/
def s_trace_mem_release {σ : Type} (U : aws_allocator σ) (tracer : alloc_tracer)
    (s : σ) (ptr : Nat) : alloc_tracer × σ :=
  (s_alloc_tracer_untrack tracer ptr, U.mem_release s ptr)

/-- `s_trace_mem_realloc` (lines 436-446): reallocate through the inner
allocator (fatally asserted to succeed), untrack the original pointer, track
the new pointer with the new size, return the new pointer. -/
def s_trace_mem_realloc {σ : Type} (U : aws_allocator σ) (tracer : alloc_tracer)
    (s : σ) (ptr old_size new_size now : Nat) (stack_frames : List Nat)
    (stack_id : Nat) : Option (alloc_tracer × σ × Nat) :=
  let r := U.mem_realloc s ptr old_size new_size
  let t1 := s_alloc_tracer_untrack tracer ptr
  (s_alloc_tracer_track t1 r.2 new_size now stack_frames stack_id).map
    (fun t2 => (t2, r.1, r.2))

/-- `s_trace_mem_calloc` (lines 448-453): zeroed acquire through the inner
allocator, then track the returned pointer with `num * size` computed in
`size_t` arithmetic (line 451). -/
def s_trace_mem_calloc {σ : Type} (U : aws_allocator σ) (tracer : alloc_tracer)
    (s : σ) (num size now : Nat) (stack_frames : List Nat) (stack_id : Nat) :
    Option (alloc_tracer × σ × Nat) :=
  let r := U.mem_calloc s num size
  (s_alloc_tracer_track tracer r.2 ((num * size) % sizeTMod) now stack_frames stack_id).map
    (fun t2 => (t2, r.1, r.2))

/-- One client call against an allocator: the façade's four operations.  The
`now`/`frames`/`sid` components are the per-call environment inputs (wall
clock, backtrace, fingerprint) consumed by `s_alloc_tracer_track`. -/
inductive ClientOp
  | opAcquire (size now sid : Nat) (frames : List Nat)
  | opRelease (ptr : Nat)
  | opCalloc (num size now sid : Nat) (frames : List Nat)
  | opRealloc (ptr old_size new_size now sid : Nat) (frames : List Nat)
deriving DecidableEq

/-- One step of the façade: dispatch a `ClientOp` through the corresponding
`s_trace_mem_*` vtable entry.  `none` is a fatal abort inside track; the
`Option Nat` in the result is the address the operation returned to the
client (`none` for release, which returns void). -/
def facadeStep {σ : Type} (U : aws_allocator σ) (st : alloc_tracer × σ) :
    ClientOp → Option ((alloc_tracer × σ) × Option Nat)
  | .opAcquire size now sid frames =>
      (s_trace_mem_acquire U st.1 st.2 size now frames sid).map
        (fun r => ((r.1, r.2.1), some r.2.2))
  | .opRelease ptr =>
      let r := s_trace_mem_release U st.1 st.2 ptr
      some ((r.1, r.2), none)
  | .opCalloc num size now sid frames =>
      (s_trace_mem_calloc U st.1 st.2 num size now frames sid).map
        (fun r => ((r.1, r.2.1), some r.2.2))
  | .opRealloc ptr old_size new_size now sid frames =>
      (s_trace_mem_realloc U st.1 st.2 ptr old_size new_size now frames sid).map
        (fun r => ((r.1, r.2.1), some r.2.2))

/-- Run a sequence of client calls through the façade, collecting the
addresses returned to the client. -/
def runFacade {σ : Type} (U : aws_allocator σ) :
    alloc_tracer × σ → List ClientOp → Option ((alloc_tracer × σ) × List (Option Nat))
  | st, [] => some (st, [])
  | st, op :: rest =>
    (facadeStep U st op).bind (fun p =>
      (runFacade U p.1 rest).map (fun q => (q.1, p.2 :: q.2)))

/-- One step of the same client call made directly against the inner
allocator `U`, with the tracer absent. -/
def innerStep {σ : Type} (U : aws_allocator σ) (s : σ) : ClientOp → σ × Option Nat
  | .opAcquire size _ _ _ => let r := U.mem_acquire s size; (r.1, some r.2)
  | .opRelease ptr => (U.mem_release s ptr, none)
  | .opCalloc num size _ _ _ => let r := U.mem_calloc s num size; (r.1, some r.2)
  | .opRealloc ptr old_size new_size _ _ _ =>
      let r := U.mem_realloc s ptr old_size new_size; (r.1, some r.2)

/-- Run a sequence of client calls directly against the inner allocator. -/
def runInner {σ : Type} (U : aws_allocator σ) : σ → List ClientOp → σ × List (Option Nat)
  | s, [] => (s, [])
  | s, op :: rest =>
    let r := innerStep U s op
    let rest2 := runInner U r.1 rest
    (rest2.1, r.2 :: rest2.2)

/-! ### Association-list lemmas -/

lemma sizeTMod_pos : 0 < sizeTMod := by
  unfold sizeTMod
  positivity

lemma sumSizes_nil : sumSizes [] = 0 := rfl

lemma sumSizes_cons (e : Nat × alloc_info) (m : List (Nat × alloc_info)) :
    sumSizes (e :: m) = e.2.size + sumSizes m := by
  simp [sumSizes]

lemma sumSizes_append_single (m : List (Nat × alloc_info)) (e : Nat × alloc_info) :
    sumSizes (m ++ [e]) = sumSizes m + e.2.size := by
  simp [sumSizes]

lemma tblFind_eq_none_of_not_mem {α : Type} {m : List (Nat × α)} {k : Nat}
    (h : k ∉ m.map Prod.fst) : tblFind m k = none := by
  induction m with
  | nil => rfl
  | cons e rest ih =>
      simp only [List.map_cons, List.mem_cons] at h
      push_neg at h
      have he : e.1 ≠ k := fun hk => h.1 hk.symm
      simp [tblFind, he, ih h.2]

lemma tblFind_append_of_none {α : Type} {m1 : List (Nat × α)} (m2 : List (Nat × α))
    {k : Nat} (h : tblFind m1 k = none) : tblFind (m1 ++ m2) k = tblFind m2 k := by
  induction m1 with
  | nil => rfl
  | cons e rest ih =>
      by_cases he : e.1 = k
      · simp [tblFind, he] at h
      · simp only [tblFind, he, if_false, ite_false] at h ⊢
        simp [tblFind, he] at h ⊢
        exact ih h

lemma tblFind_singleton_self {α : Type} (k : Nat) (v : α) :
    tblFind [(k, v)] k = some v := by
  simp [tblFind]

lemma tblFind_size_le {m : List (Nat × alloc_info)} {k : Nat} {a : alloc_info}
    (h : tblFind m k = some a) : a.size ≤ sumSizes m := by
  induction m with
  | nil => simp [tblFind] at h
  | cons e rest ih =>
      rw [sumSizes_cons]
      by_cases he : e.1 = k
      · simp only [tblFind, he, if_true, ite_true, Option.some.injEq] at h
        subst h
        omega
      · simp only [tblFind, he, if_false, ite_false] at h
        have := ih h
        omega

lemma sumSizes_tblRemove {m : List (Nat × alloc_info)} {k : Nat} {a : alloc_info}
    (h : tblFind m k = some a) :
    sumSizes (tblRemove m k) = sumSizes m - a.size := by
  induction m with
  | nil => simp [tblFind] at h
  | cons e rest ih =>
      by_cases he : e.1 = k
      · simp only [tblFind, he, if_true, ite_true, Option.some.injEq] at h
        subst h
        simp [tblRemove, he, sumSizes_cons]
      · simp only [tblFind, he, if_false, ite_false] at h
        have hle := tblFind_size_le h
        simp only [tblRemove, he, ite_false]
        rw [sumSizes_cons, sumSizes_cons, ih h]
        omega

lemma length_tblRemove {α : Type} {m : List (Nat × α)} {k : Nat} {a : α}
    (h : tblFind m k = some a) : (tblRemove m k).length + 1 = m.length := by
  induction m with
  | nil => simp [tblFind] at h
  | cons e rest ih =>
      by_cases he : e.1 = k
      · simp [tblRemove, he]
      · simp only [tblFind, he, if_false, ite_false] at h
        simp [tblRemove, he, ih h]

lemma tblFind_tblRemove_self {α : Type} {m : List (Nat × α)} {k : Nat}
    (h : keysNodup m) : tblFind (tblRemove m k) k = none := by
  induction m with
  | nil => rfl
  | cons e rest ih =>
      unfold keysNodup at h
      rw [List.map_cons, List.nodup_cons] at h
      by_cases he : e.1 = k
      · subst he
        simp only [tblRemove, if_true, ite_true]
        exact tblFind_eq_none_of_not_mem h.1
      · simp only [tblRemove, he, if_false, ite_false]
        simp [tblFind, he]
        exact ih h.2

lemma countKey_append {α : Type} (m1 m2 : List (Nat × α)) (k : Nat) :
    countKey (m1 ++ m2) k = countKey m1 k + countKey m2 k := by
  simp [countKey, List.filter_append]

lemma countKey_eq_zero_of_find_none {α : Type} {m : List (Nat × α)} {k : Nat}
    (h : tblFind m k = none) : countKey m k = 0 := by
  induction m with
  | nil => rfl
  | cons e rest ih =>
      by_cases he : e.1 = k
      · simp [tblFind, he] at h
      · simp only [tblFind, he, if_false, ite_false] at h
        have hb : (e.1 == k) = false := by
          simp [he]
        simp [countKey, List.filter_cons, hb] at ih ⊢
        exact ih h

lemma countKey_singleton_self {α : Type} (k : Nat) (v : α) :
    countKey [(k, v)] k = 1 := by
  simp [countKey]

lemma countKey_singleton_ne {α : Type} {q p : Nat} (h : q ≠ p) (v : α) :
    countKey [(q, v)] p = 0 := by
  simp [countKey, List.filter_cons, h]

/-! ### size_t wrap-around arithmetic -/

/-- Subtracting `s` with a wrapping size_t fetch-sub from a value that holds
`sum % W` yields `(sum - s) % W` whenever `s ≤ sum`. -/
lemma wrap_sub_mod (W sum s : Nat) (hW : 0 < W) (hs : s ≤ sum) :
    (sum % W + (W - s % W)) % W = (sum - s) % W := by
  have hdm := Nat.div_add_mod s W
  have hml : s % W < W := Nat.mod_lt _ hW
  rw [Nat.mod_add_mod]
  have h2 : sum + (W - s % W) = (sum - s) + W * (s / W) + W := by omega
  rw [h2]
  have h3 : (sum - s) + W * (s / W) + W = (sum - s) + (s / W + 1) * W := by ring
  rw [h3, Nat.add_mul_mod_self_right]

/-! ### Characterizations of track and untrack -/

lemma trackRecord_size (tracer : alloc_tracer) (size now : Nat)
    (stack_frames : List Nat) (stack_id : Nat) :
    (trackRecord tracer size now stack_frames stack_id).size = size := rfl

lemma track_none_level {tracer : alloc_tracer} (ptr size now : Nat)
    (stack_frames : List Nat) (stack_id : Nat)
    (hlvl : tracer.level = .AWS_MEMTRACE_NONE) :
    s_alloc_tracer_track tracer ptr size now stack_frames stack_id = some tracer := by
  simp [s_alloc_tracer_track, hlvl]

lemma track_eq_some {tracer : alloc_tracer} {ptr : Nat} (size now : Nat)
    (stack_frames : List Nat) (stack_id : Nat)
    (hlvl : tracer.level ≠ .AWS_MEMTRACE_NONE)
    (hfind : tblFind tracer.allocs ptr = none) :
    s_alloc_tracer_track tracer ptr size now stack_frames stack_id
      = some { tracer with
          allocated := (tracer.allocated + size) % sizeTMod,
          allocs := tracer.allocs ++ [(ptr, trackRecord tracer size now stack_frames stack_id)],
          stacksTable := trackStacks tracer stack_frames stack_id } := by
  simp [s_alloc_tracer_track, tblPut, hlvl, hfind]

lemma track_eq_none {tracer : alloc_tracer} {ptr : Nat} (size now : Nat)
    (stack_frames : List Nat) (stack_id : Nat) {a : alloc_info}
    (hlvl : tracer.level ≠ .AWS_MEMTRACE_NONE)
    (hfind : tblFind tracer.allocs ptr = some a) :
    s_alloc_tracer_track tracer ptr size now stack_frames stack_id = none := by
  simp [s_alloc_tracer_track, tblPut, hlvl, hfind]

/-- Case analysis for a successful track call. -/
lemma track_some_cases {tracer t2 : alloc_tracer} {ptr size now : Nat}
    {stack_frames : List Nat} {stack_id : Nat}
    (h : s_alloc_tracer_track tracer ptr size now stack_frames stack_id = some t2) :
    (tracer.level = .AWS_MEMTRACE_NONE ∧ t2 = tracer)
    ∨ (tracer.level ≠ .AWS_MEMTRACE_NONE ∧ tblFind tracer.allocs ptr = none
        ∧ t2 = { tracer with
            allocated := (tracer.allocated + size) % sizeTMod,
            allocs := tracer.allocs
                ++ [(ptr, trackRecord tracer size now stack_frames stack_id)],
            stacksTable := trackStacks tracer stack_frames stack_id }) := by
  by_cases hlvl : tracer.level = .AWS_MEMTRACE_NONE
  · left
    refine ⟨hlvl, ?_⟩
    rw [track_none_level ptr size now stack_frames stack_id hlvl] at h
    exact (Option.some.injEq _ _).mp h.symm
  · right
    refine ⟨hlvl, ?_⟩
    cases hfind : tblFind tracer.allocs ptr with
    | none =>
        rw [track_eq_some size now stack_frames stack_id hlvl hfind] at h
        exact ⟨rfl, ((Option.some.injEq _ _).mp h).symm⟩
    | some a =>
        rw [track_eq_none size now stack_frames stack_id hlvl hfind] at h
        cases h

lemma untrack_none_level {tracer : alloc_tracer} (ptr : Nat)
    (hlvl : tracer.level = .AWS_MEMTRACE_NONE) :
    s_alloc_tracer_untrack tracer ptr = tracer := by
  simp [s_alloc_tracer_untrack, hlvl]

lemma untrack_eq_of_none {tracer : alloc_tracer} {ptr : Nat}
    (hfind : tblFind tracer.allocs ptr = none) :
    s_alloc_tracer_untrack tracer ptr = tracer := by
  unfold s_alloc_tracer_untrack
  rw [hfind]
  simp

lemma untrack_eq_of_some {tracer : alloc_tracer} {ptr : Nat} {a : alloc_info}
    (hlvl : tracer.level ≠ .AWS_MEMTRACE_NONE)
    (hfind : tblFind tracer.allocs ptr = some a) :
    s_alloc_tracer_untrack tracer ptr
      = { tracer with
          allocated := (tracer.allocated + (sizeTMod - a.size % sizeTMod)) % sizeTMod,
          allocs := tblRemove tracer.allocs ptr } := by
  unfold s_alloc_tracer_untrack
  rw [if_neg hlvl, hfind]

/-! ### The live-bytes invariant -/

/-- The quiescent-point bookkeeping invariant: the atomic counter holds the
sum of the `size` fields of the allocation map, as a size_t. -/
def tracerInv (t : alloc_tracer) : Prop :=
  t.allocated = sumSizes t.allocs % sizeTMod

lemma tracerInv_track {tracer t2 : alloc_tracer} {ptr size now : Nat}
    {stack_frames : List Nat} {stack_id : Nat} (hInv : tracerInv tracer)
    (h : s_alloc_tracer_track tracer ptr size now stack_frames stack_id = some t2) :
    tracerInv t2 := by
  rcases track_some_cases h with ⟨_, rfl⟩ | ⟨_, _, rfl⟩
  · exact hInv
  · unfold tracerInv at hInv ⊢
    simp only [sumSizes_append_single, trackRecord_size]
    rw [hInv, Nat.mod_add_mod]

lemma tracerInv_untrack {tracer : alloc_tracer} (ptr : Nat) (hInv : tracerInv tracer) :
    tracerInv (s_alloc_tracer_untrack tracer ptr) := by
  by_cases hlvl : tracer.level = .AWS_MEMTRACE_NONE
  · rw [untrack_none_level ptr hlvl]
    exact hInv
  · cases hfind : tblFind tracer.allocs ptr with
    | none =>
        rw [untrack_eq_of_none hfind]
        exact hInv
    | some a =>
        rw [untrack_eq_of_some hlvl hfind]
        unfold tracerInv at hInv ⊢
        simp only
        rw [hInv, sumSizes_tblRemove hfind,
          wrap_sub_mod _ _ _ sizeTMod_pos (tblFind_size_le hfind)]

lemma tracerInv_facadeStep {σ : Type} {U : aws_allocator σ}
    {st st2 : alloc_tracer × σ} {r : Option Nat} {op : ClientOp}
    (hInv : tracerInv st.1) (h : facadeStep U st op = some (st2, r)) :
    tracerInv st2.1 := by
  cases op with
  | opAcquire size now sid frames =>
      simp only [facadeStep, s_trace_mem_acquire] at h
      cases htr : s_alloc_tracer_track st.1 (U.mem_acquire st.2 size).2 size now frames sid with
      | none => rw [htr] at h; simp at h
      | some t2 =>
          rw [htr] at h
          simp only [Option.map, Option.some.injEq, Prod.mk.injEq] at h
          rw [← h.1]
          exact tracerInv_track hInv htr
  | opRelease ptr =>
      simp only [facadeStep, s_trace_mem_release, Option.some.injEq, Prod.mk.injEq] at h
      rw [← h.1]
      exact tracerInv_untrack ptr hInv
  | opCalloc num size now sid frames =>
      simp only [facadeStep, s_trace_mem_calloc] at h
      cases htr : s_alloc_tracer_track st.1 (U.mem_calloc st.2 num size).2
          ((num * size) % sizeTMod) now frames sid with
      | none => rw [htr] at h; simp at h
      | some t2 =>
          rw [htr] at h
          simp only [Option.map, Option.some.injEq, Prod.mk.injEq] at h
          rw [← h.1]
          exact tracerInv_track hInv htr
  | opRealloc ptr old_size new_size now sid frames =>
      simp only [facadeStep, s_trace_mem_realloc] at h
      cases htr : s_alloc_tracer_track (s_alloc_tracer_untrack st.1 ptr)
          (U.mem_realloc st.2 ptr old_size new_size).2 new_size now frames sid with
      | none => rw [htr] at h; simp at h
      | some t2 =>
          rw [htr] at h
          simp only [Option.map, Option.some.injEq, Prod.mk.injEq] at h
          rw [← h.1]
          exact tracerInv_track (tracerInv_untrack ptr hInv) htr

lemma tracerInv_runFacade {σ : Type} {U : aws_allocator σ} :
    ∀ {ops : List ClientOp} {st stf : alloc_tracer × σ} {rs : List (Option Nat)},
      tracerInv st.1 → runFacade U st ops = some (stf, rs) → tracerInv stf.1 := by
  intro ops
  induction ops with
  | nil =>
      intro st stf rs hInv h
      simp only [runFacade, Option.some.injEq, Prod.mk.injEq] at h
      rw [← h.1]
      exact hInv
  | cons op rest ih =>
      intro st stf rs hInv h
      simp only [runFacade] at h
      cases hstep : facadeStep U st op with
      | none => rw [hstep] at h; simp at h
      | some p =>
          rw [hstep] at h
          simp only [Option.bind] at h
          cases hrest : runFacade U p.1 rest with
          | none => rw [hrest] at h; simp at h
          | some pf =>
              rw [hrest] at h
              simp only [Option.map, Option.some.injEq, Prod.mk.injEq] at h
              have hInv2 : tracerInv p.1.1 := tracerInv_facadeStep hInv hstep
              have := ih hInv2 hrest
              rw [← h.1]
              exact this

/-- The exact (non-wrapping) version of the fetch-sub identity, for states
whose byte count is below `2 ^ 64`. -/
lemma wrap_sub_exact (W sum s : Nat) (hW : 0 < W) (hs : s ≤ sum) (hlt : sum < W) :
    (sum + (W - s % W)) % W = sum - s := by
  have h1 : sum % W = sum := Nat.mod_eq_of_lt hlt
  have h2 := wrap_sub_mod W sum s hW hs
  rw [h1] at h2
  rw [h2, Nat.mod_eq_of_lt (by omega)]

/-- Tracking a fresh address and then untracking it restores the byte
counter. -/
lemma track_then_untrack_allocated {t : alloc_tracer} {ptr : Nat} (size now : Nat)
    (frames : List Nat) (sid : Nat)
    (hlvl : t.level ≠ .AWS_MEMTRACE_NONE)
    (hlt : t.allocated < sizeTMod)
    (hfresh : tblFind t.allocs ptr = none) :
    ∃ t2, s_alloc_tracer_track t ptr size now frames sid = some t2
      ∧ (s_alloc_tracer_untrack t2 ptr).allocated = t.allocated := by
  refine ⟨_, track_eq_some size now frames sid hlvl hfresh, ?_⟩
  have hfind1 : tblFind (t.allocs ++ [(ptr, trackRecord t size now frames sid)]) ptr
      = some (trackRecord t size now frames sid) := by
    rw [tblFind_append_of_none _ hfresh, tblFind_singleton_self]
  have hu := @untrack_eq_of_some
    { t with
      allocated := (t.allocated + size) % sizeTMod,
      allocs := t.allocs ++ [(ptr, trackRecord t size now frames sid)],
      stacksTable := trackStacks t frames sid }
    ptr (trackRecord t size now frames sid) hlvl hfind1
  rw [hu]
  show ((t.allocated + size) % sizeTMod
      + (sizeTMod - (trackRecord t size now frames sid).size % sizeTMod)) % sizeTMod
    = t.allocated
  rw [trackRecord_size,
    wrap_sub_mod sizeTMod (t.allocated + size) size sizeTMod_pos (Nat.le_add_left _ _),
    Nat.add_sub_cancel, Nat.mod_eq_of_lt hlt]

lemma facadeStep_none_level {σ : Type} (U : aws_allocator σ) (t : alloc_tracer)
    (s : σ) (op : ClientOp) (hlvl : t.level = .AWS_MEMTRACE_NONE) :
    facadeStep U (t, s) op = some ((t, (innerStep U s op).1), (innerStep U s op).2) := by
  cases op with
  | opAcquire size now sid frames =>
      simp [facadeStep, innerStep, s_trace_mem_acquire, track_none_level, hlvl]
  | opRelease ptr =>
      simp [facadeStep, innerStep, s_trace_mem_release, untrack_none_level, hlvl]
  | opCalloc num size now sid frames =>
      simp [facadeStep, innerStep, s_trace_mem_calloc, track_none_level, hlvl]
  | opRealloc ptr old_size new_size now sid frames =>
      simp [facadeStep, innerStep, s_trace_mem_realloc, untrack_none_level,
        track_none_level, hlvl]

lemma runFacade_none_level {σ : Type} (U : aws_allocator σ) (t : alloc_tracer)
    (hlvl : t.level = .AWS_MEMTRACE_NONE) :
    ∀ (ops : List ClientOp) (s : σ),
      runFacade U (t, s) ops = some ((t, (runInner U s ops).1), (runInner U s ops).2) := by
  intro ops
  induction ops with
  | nil => intro s; rfl
  | cons op rest ih =>
      intro s
      have hstep := facadeStep_none_level U t s op hlvl
      simp only [runFacade, runInner]
      simp [hstep, ih]

/-! ### Concrete instances used by witnesses -/

/-- A simple deterministic inner allocator over a counter state: each
acquire/calloc/realloc returns the next fresh address. -/
def counterAlloc : aws_allocator Nat :=
  { mem_acquire := fun s _ => (s + 1, s + 1),
    mem_release := fun s _ => s,
    mem_calloc := fun s _ _ => (s + 1, s + 1),
    mem_realloc := fun s _ _ _ => (s + 1, s + 1) }

/-- A BYTES-level tracer already holding one live allocation at address 7. -/
def dupTracer : alloc_tracer :=
  { allocator := 2, system_allocator := 1, level := .AWS_MEMTRACE_BYTES,
    frames_per_stack := 0, allocated := 100,
    allocs := [(7, { size := 100, time := 3, stack := 0, allocatedFrom := 1 })],
    stacksTable := [] }

/-- A freshly constructed BYTES-level tracer whose bookkeeping allocator (id 1)
is distinct from the process default allocator (id 0). -/
def wrongFreeTracer : alloc_tracer :=
  aws_mem_tracer_new 2 (some 1) 0 .AWS_MEMTRACE_BYTES 0 true

/-- A freshly constructed STACKS-level tracer whose bookkeeping allocator
(id 1) is distinct from the process default allocator (id 0). -/
def wrongFreeTracerStacks : alloc_tracer :=
  aws_mem_tracer_new 2 (some 1) 0 .AWS_MEMTRACE_STACKS 8 true

/-- A freshly constructed STACKS-level tracer with a frame budget of 8. -/
def shallowTracer : alloc_tracer :=
  aws_mem_tracer_new 2 (some 1) 0 .AWS_MEMTRACE_STACKS 8 true

/-- The tracer state after one STACKS-level track on `shallowTracer` with a
3-frame backtrace. -/
def stackDemoTracer : alloc_tracer :=
  { allocator := 2, system_allocator := 1, level := .AWS_MEMTRACE_STACKS,
    frames_per_stack := 8, allocated := 16,
    allocs := [(43, { size := 16, time := 1, stack := 77, allocatedFrom := 1 })],
    stacksTable := [(77, { depth := 1, frames := [3], allocatedFrom := 1 })] }

/-- The stack record created by that track. -/
def stackDemoRecord : stack_trace := { depth := 1, frames := [3], allocatedFrom := 1 }

/-! ### Claim theorems -/

/-- C3: a track call whose address is already a key of the allocation map is a
fatal invariant violation — the tracer aborts (modelled as `none`) rather than
completing the track with a duplicate key. -/
theorem track_duplicate_aborts (t : alloc_tracer) (ptr size now : Nat)
    (frames : List Nat) (sid : Nat) (a : alloc_info)
    (hlvl : t.level ≠ .AWS_MEMTRACE_NONE)
    (hfind : tblFind t.allocs ptr = some a) :
    s_alloc_tracer_track t ptr size now frames sid = none :=
  track_eq_none size now frames sid hlvl hfind

theorem track_duplicate_aborts_witness :
    s_alloc_tracer_track dupTracer 7 25 4 [] 0 = none :=
  track_duplicate_aborts dupTracer 7 25 4 [] 0
    { size := 100, time := 3, stack := 0, allocatedFrom := 1 } (by decide) (by decide)

/-- C5: at level BYTES or STACKS, untracking an address that is not a key of
the allocation map is a no-op that returns normally: live bytes, the
allocation map and the stack registry are all unchanged and no abort occurs
(the model's untrack is total). -/
theorem untrack_unknown_noop (t : alloc_tracer) (ptr : Nat)
    (hlvl : t.level ≠ .AWS_MEMTRACE_NONE)
    (hfind : tblFind t.allocs ptr = none) :
    s_alloc_tracer_untrack t ptr = t :=
  untrack_eq_of_none hfind

theorem untrack_unknown_noop_witness :
    s_alloc_tracer_untrack dupTracer 9 = dupTracer :=
  untrack_unknown_noop dupTracer 9 (by decide) (by decide)

/-- C7: constructing a tracer at level STACKS (stack capture available, so the
level is not clamped) gives an effective `frames_per_stack` of 8 when 0 is
requested, 128 when more than 128 is requested, and the requested value itself
when it lies between 1 and 128. -/
theorem frames_per_stack_policy (A B D req : Nat) :
    (aws_mem_tracer_new A (some B) D .AWS_MEMTRACE_STACKS req true).level
        = .AWS_MEMTRACE_STACKS
    ∧ (aws_mem_tracer_new A (some B) D .AWS_MEMTRACE_STACKS req true).frames_per_stack
        = if req = 0 then 8 else if req > 128 then 128 else req := by
  constructor
  · rfl
  · have hred : (aws_mem_tracer_new A (some B) D .AWS_MEMTRACE_STACKS req true).frames_per_stack
        = if (if req > 128 then 128 else req) ≠ 0
          then (if req > 128 then 128 else req) else 8 := rfl
    rw [hred]
    split_ifs <;> omega

/-- C4 (the code at the failing input): with a bookkeeping allocator B = 1
distinct from the process default allocator 0, the `alloc_info` created by
track is allocated from B (line 139), yet `s_destroy_alloc` — the destructor
that `s_alloc_tracer_untrack` and table teardown invoke on it — frees it via
`aws_default_allocator()` (line 83), i.e. via allocator 0 ≠ B; likewise
`s_destroy_stacktrace` (line 89) for the `stack_trace` allocated from B on
line 162.  So records allocated from B are freed by a different allocator. -/
theorem record_freed_via_default_not_bookkeeping :
    (((s_alloc_tracer_track wrongFreeTracer 42 100 7 [] 0).bind
        (fun t2 => (tblFind t2.allocs 42).map
          (fun a => (a.allocatedFrom, (s_destroy_alloc 0 a).freedBy)))) = some (1, 0))
    ∧ (((s_alloc_tracer_track wrongFreeTracerStacks 42 100 7 [3, 4, 5] 9).bind
        (fun t2 => (tblFind t2.stacksTable 9).map
          (fun st => (st.allocatedFrom, (s_destroy_stacktrace 0 st).freedBy)))) = some (1, 0))
    ∧ (1 : Nat) ≠ 0 :=
  ⟨by decide, by decide, by decide⟩

/-- C10 counterexample: at level STACKS with `frames_per_stack = 8`, a track
whose stack walker returns exactly one frame creates a new StackRecord whose
stored depth is `1 - FRAMES_TO_SKIP` in size_t arithmetic, i.e. `2 ^ 64 - 1`,
which exceeds `frames_per_stack`: the subtraction underflows, refuting the
claim that the captured depth is never 1 when a new StackRecord is created. -/
theorem stack_depth_underflow_cex :
    (((s_alloc_tracer_track shallowTracer 42 16 0 [5] 99).bind
        (fun t2 => (tblFind t2.stacksTable 99).map (fun st => st.depth))))
      = some (2 ^ 64 - 1)
    ∧ shallowTracer.frames_per_stack = 8
    ∧ 2 ^ 64 - 1 > 8 :=
  ⟨by decide, by decide, by decide⟩

/-- C10 (amended): at level STACKS, whenever the stack walker returns at least
`FRAMES_TO_SKIP` frames (and at most the requested maximum
`FRAMES_TO_SKIP + frames_per_stack`, with the budget at its clamped bound of
at most 128), the new StackRecord's stored depth is the captured depth minus
the skip prefix with no underflow, and never exceeds `frames_per_stack`.  A
capture of exactly one frame — permitted by the stack-walker contract, which
only bounds the depth by the requested maximum — underflows instead, as the
counterexample shows. -/
theorem stack_depth_no_underflow (t : alloc_tracer) (ptr size now : Nat)
    (frames : List Nat) (sid : Nat) (t2 : alloc_tracer) (st : stack_trace)
    (hlvl : t.level = .AWS_MEMTRACE_STACKS)
    (hfps : t.frames_per_stack ≤ 128)
    (hlo : FRAMES_TO_SKIP ≤ frames.length)
    (hhi : frames.length ≤ FRAMES_TO_SKIP + t.frames_per_stack)
    (hnew : tblFind t.stacksTable sid = none)
    (h : s_alloc_tracer_track t ptr size now frames sid = some t2)
    (hst : tblFind t2.stacksTable sid = some st) :
    st.depth = frames.length - FRAMES_TO_SKIP ∧ st.depth ≤ t.frames_per_stack := by
  have hskip : FRAMES_TO_SKIP = 2 := rfl
  have hWbig : 130 < sizeTMod := by norm_num [sizeTMod]
  have hlvl2 : t.level ≠ .AWS_MEMTRACE_NONE := by rw [hlvl]; decide
  have hlen : frames.length ≠ 0 := by omega
  rcases track_some_cases h with ⟨hn, _⟩ | ⟨_, _, rfl⟩
  · exact absurd hn hlvl2
  · dsimp only at hst
    simp only [trackStacks, hlvl, hlen, hnew, ne_eq, not_false_iff, and_true,
      if_true, ite_true] at hst
    rw [tblFind_append_of_none _ hnew, tblFind_singleton_self] at hst
    have hstEq := (Option.some.injEq _ _).mp hst
    rw [← hstEq]
    have hdeq : (frames.length + sizeTMod - FRAMES_TO_SKIP) % sizeTMod
        = frames.length - FRAMES_TO_SKIP := by
      have he : frames.length + sizeTMod - FRAMES_TO_SKIP
          = (frames.length - FRAMES_TO_SKIP) + sizeTMod := by omega
      rw [he, Nat.add_mod_right, Nat.mod_eq_of_lt (by omega)]
    constructor
    · exact hdeq
    · show (frames.length + sizeTMod - FRAMES_TO_SKIP) % sizeTMod ≤ t.frames_per_stack
      rw [hdeq]
      omega

theorem stack_depth_no_underflow_witness :
    stackDemoRecord.depth = [1, 2, 3].length - FRAMES_TO_SKIP
    ∧ stackDemoRecord.depth ≤ shallowTracer.frames_per_stack :=
  stack_depth_no_underflow shallowTracer 43 16 1 [1, 2, 3] 77 stackDemoTracer
    stackDemoRecord (by decide) (by decide) (by decide) (by decide) (by decide)
    (by decide) (by decide)

/-- C1: at every quiescent point of every acquire / zeroed-acquire / release /
reallocate sequence run through the façade, the atomic live-bytes counter
equals the sum of the `size` fields over all entries of the allocation map,
and the live-count query returns the number of entries of the allocation
map. -/
theorem live_bytes_and_count_invariant {σ : Type} (U : aws_allocator σ) (s0 : σ)
    (A B D : Nat) (level : aws_mem_trace_level) (fps : Nat) (bt : Bool)
    (ops : List ClientOp) (tf : alloc_tracer) (sf : σ) (rs : List (Option Nat))
    (h : runFacade U (aws_mem_tracer_new A (some B) D level fps bt, s0) ops
        = some ((tf, sf), rs))
    (hsum : sumSizes tf.allocs < sizeTMod) :
    aws_mem_tracer_bytes tf = sumSizes tf.allocs
    ∧ aws_mem_tracer_count tf = tf.allocs.length := by
  have hInv0 : tracerInv (aws_mem_tracer_new A (some B) D level fps bt) := by
    unfold tracerInv
    rfl
  have hInvf : tracerInv tf := tracerInv_runFacade hInv0 h
  refine ⟨?_, rfl⟩
  unfold tracerInv at hInvf
  unfold aws_mem_tracer_bytes
  rw [hInvf, Nat.mod_eq_of_lt hsum]

/-- The client-call sequence of the C1 witness: acquire 100 bytes, acquire
250 bytes, release the first allocation. -/
def c1Ops : List ClientOp :=
  [.opAcquire 100 0 0 [], .opAcquire 250 1 0 [], .opRelease 1]

/-- The tracer state after running `c1Ops` from a fresh BYTES-level tracer. -/
def c1FinalTracer : alloc_tracer :=
  { allocator := 2, system_allocator := 1, level := .AWS_MEMTRACE_BYTES,
    frames_per_stack := 0, allocated := 250,
    allocs := [(2, { size := 250, time := 1, stack := 0, allocatedFrom := 1 })],
    stacksTable := [] }

theorem live_bytes_and_count_invariant_witness :
    aws_mem_tracer_bytes c1FinalTracer = sumSizes c1FinalTracer.allocs
    ∧ aws_mem_tracer_count c1FinalTracer = c1FinalTracer.allocs.length :=
  @live_bytes_and_count_invariant Nat counterAlloc 0 2 1 0 .AWS_MEMTRACE_BYTES 0 true
    c1Ops c1FinalTracer 2 [some 1, some 2, none] (by decide) (by decide)

/-- C8: at level BYTES or STACKS, an acquire of size n through the façade that
returns a fresh (not already tracked) address, followed by a release of that
same address, leaves live_bytes at its value before the acquire. -/
theorem acquire_release_balance {σ : Type} (U : aws_allocator σ) (t : alloc_tracer)
    (s : σ) (n now sid : Nat) (frames : List Nat) (t1 : alloc_tracer) (s1 : σ) (p : Nat)
    (hlvl : t.level ≠ .AWS_MEMTRACE_NONE)
    (hlt : t.allocated < sizeTMod)
    (h1 : s_trace_mem_acquire U t s n now frames sid = some (t1, s1, p))
    (hfresh : tblFind t.allocs p = none) :
    (s_trace_mem_release U t1 s1 p).1.allocated = t.allocated := by
  simp only [s_trace_mem_acquire] at h1
  cases htr : s_alloc_tracer_track t (U.mem_acquire s n).2 n now frames sid with
  | none => rw [htr] at h1; simp at h1
  | some t2 =>
      rw [htr] at h1
      simp only [Option.map, Option.some.injEq, Prod.mk.injEq] at h1
      obtain ⟨ha, _, hc⟩ := h1
      subst hc
      subst ha
      obtain ⟨t3, htr2, hbal⟩ :=
        track_then_untrack_allocated n now frames sid hlvl hlt hfresh
      rw [htr] at htr2
      have heq : t2 = t3 := (Option.some.injEq _ _).mp htr2
      show (s_alloc_tracer_untrack t2 ((U.mem_acquire s n).2)).allocated = t.allocated
      rw [heq]
      exact hbal

/-- A fresh BYTES-level tracer used by several witnesses. -/
def freshTracer : alloc_tracer :=
  aws_mem_tracer_new 2 (some 1) 0 .AWS_MEMTRACE_BYTES 0 true

/-- The tracer state after acquiring 100 bytes (address 1) on `freshTracer`. -/
def balanceMidTracer : alloc_tracer :=
  { allocator := 2, system_allocator := 1, level := .AWS_MEMTRACE_BYTES,
    frames_per_stack := 0, allocated := 100,
    allocs := [(1, { size := 100, time := 5, stack := 0, allocatedFrom := 1 })],
    stacksTable := [] }

theorem acquire_release_balance_witness :
    (s_trace_mem_release counterAlloc balanceMidTracer 1 1).1.allocated
      = freshTracer.allocated :=
  @acquire_release_balance Nat counterAlloc freshTracer 0 100 5 0 [] balanceMidTracer 1 1
    (by decide) (by decide) (by decide) (by decide)

/-- C9: at level BYTES or STACKS, zeroed-acquire(k, n) records the size_t
product `(k * n) % 2 ^ 64` as the tracked size of the returned address and
adds that wrapped product to live_bytes — so for k and n whose mathematical
product is at least `2 ^ 64`, the tracked size is the wrapped product, not
the mathematical one. -/
theorem calloc_tracks_wrapped_product {σ : Type} (U : aws_allocator σ)
    (t : alloc_tracer) (s : σ) (num size now sid : Nat) (frames : List Nat)
    (t2 : alloc_tracer) (s2 : σ) (p : Nat)
    (hlvl : t.level ≠ .AWS_MEMTRACE_NONE)
    (h : s_trace_mem_calloc U t s num size now frames sid = some (t2, s2, p)) :
    ∃ r, tblFind t2.allocs p = some r ∧ r.size = (num * size) % sizeTMod
      ∧ t2.allocated = (t.allocated + num * size) % sizeTMod := by
  simp only [s_trace_mem_calloc] at h
  cases htr : s_alloc_tracer_track t (U.mem_calloc s num size).2
      ((num * size) % sizeTMod) now frames sid with
  | none => rw [htr] at h; simp at h
  | some t3 =>
      rw [htr] at h
      simp only [Option.map, Option.some.injEq, Prod.mk.injEq] at h
      obtain ⟨ha, _, hc⟩ := h
      subst hc
      subst ha
      rcases track_some_cases htr with ⟨hn, _⟩ | ⟨_, hfind0, rfl⟩
      · exact absurd hn hlvl
      · refine ⟨trackRecord t ((num * size) % sizeTMod) now frames sid, ?_, rfl, ?_⟩
        · show tblFind (t.allocs
              ++ [((U.mem_calloc s num size).2,
                  trackRecord t ((num * size) % sizeTMod) now frames sid)])
              ((U.mem_calloc s num size).2)
            = some (trackRecord t ((num * size) % sizeTMod) now frames sid)
          rw [tblFind_append_of_none _ hfind0, tblFind_singleton_self]
        · show (t.allocated + (num * size) % sizeTMod) % sizeTMod
            = (t.allocated + num * size) % sizeTMod
          exact Nat.add_mod_mod _ _ _

/-- The tracer state after a zeroed-acquire of `2 ^ 63 * 4` bytes (which wraps
to 0 in size_t) on `freshTracer`. -/
def callocWrapTracer : alloc_tracer :=
  { allocator := 2, system_allocator := 1, level := .AWS_MEMTRACE_BYTES,
    frames_per_stack := 0, allocated := 0,
    allocs := [(1, { size := 0, time := 3, stack := 0, allocatedFrom := 1 })],
    stacksTable := [] }

theorem calloc_tracks_wrapped_product_witness :
    ∃ r, tblFind callocWrapTracer.allocs 1 = some r
      ∧ r.size = (2 ^ 63 * 4) % sizeTMod
      ∧ callocWrapTracer.allocated = (freshTracer.allocated + 2 ^ 63 * 4) % sizeTMod :=
  @calloc_tracks_wrapped_product Nat counterAlloc freshTracer 0 (2 ^ 63) 4 3 0 []
    callocWrapTracer 1 1 (by decide) (by decide)

/-- C2: at level BYTES or STACKS, reallocating a live pointer p with recorded
size `old` to size `new` through the façade, returning q, changes live_bytes
by exactly `new - old` whether or not q equals p, and leaves the allocation
map with exactly one entry keyed by q, of size `new`, in place of the entry
for p (same total entry count, p no longer present when q ≠ p). -/
theorem realloc_conservation {σ : Type} (U : aws_allocator σ) (t : alloc_tracer)
    (s : σ) (p old_size new_size now sid : Nat) (frames : List Nat) (a : alloc_info)
    (t2 : alloc_tracer) (s2 : σ) (q : Nat)
    (hlvl : t.level ≠ .AWS_MEMTRACE_NONE)
    (hfind : tblFind t.allocs p = some a)
    (hsize : a.size = old_size)
    (hnodup : keysNodup t.allocs)
    (hbytes : t.allocated = sumSizes t.allocs)
    (hfit : sumSizes t.allocs + new_size < sizeTMod)
    (h : s_trace_mem_realloc U t s p old_size new_size now frames sid
        = some (t2, s2, q)) :
    ((aws_mem_tracer_bytes t2 : Int) - (aws_mem_tracer_bytes t : Int)
        = (new_size : Int) - (old_size : Int))
    ∧ (∃ r, tblFind t2.allocs q = some r ∧ r.size = new_size
        ∧ countKey t2.allocs q = 1
        ∧ (q ≠ p → countKey t2.allocs p = 0)
        ∧ t2.allocs.length = t.allocs.length) := by
  have hWpos := sizeTMod_pos
  have hole : old_size ≤ sumSizes t.allocs := hsize ▸ tblFind_size_le hfind
  simp only [s_trace_mem_realloc] at h
  cases htr : s_alloc_tracer_track (s_alloc_tracer_untrack t p)
      (U.mem_realloc s p old_size new_size).2 new_size now frames sid with
  | none => rw [htr] at h; simp at h
  | some t3 =>
      rw [htr] at h
      simp only [Option.map, Option.some.injEq, Prod.mk.injEq] at h
      obtain ⟨ha, _, hc⟩ := h
      rw [hc] at htr
      rw [untrack_eq_of_some hlvl hfind] at htr
      rcases track_some_cases htr with ⟨hn, _⟩ | ⟨_, hfind2, hEq⟩
      · exact absurd hn hlvl
      · have hfind2x : tblFind (tblRemove t.allocs p) q = none := hfind2
        have hall : t2.allocated
            = ((t.allocated + (sizeTMod - a.size % sizeTMod)) % sizeTMod + new_size)
              % sizeTMod := by
          rw [← ha, hEq]
        have hrec : ∃ rec : alloc_info, rec.size = new_size
            ∧ t2.allocs = tblRemove t.allocs p ++ [(q, rec)] := by
          refine ⟨trackRecord
            { t with
              allocated := (t.allocated + (sizeTMod - a.size % sizeTMod)) % sizeTMod,
              allocs := tblRemove t.allocs p }
            new_size now frames sid, rfl, ?_⟩
          rw [← ha, hEq]
        obtain ⟨rec, hrecsize, hallocs⟩ := hrec
        constructor
        · show ((t2.allocated : Int)) - (t.allocated : Int)
            = (new_size : Int) - (old_size : Int)
          rw [hall, hbytes, hsize]
          have hexact : (sumSizes t.allocs + (sizeTMod - old_size % sizeTMod)) % sizeTMod
              = sumSizes t.allocs - old_size :=
            wrap_sub_exact _ _ _ hWpos hole (by omega)
          rw [hexact, Nat.mod_eq_of_lt (by omega)]
          omega
        · refine ⟨rec, ?_, hrecsize, ?_, ?_, ?_⟩
          · rw [hallocs, tblFind_append_of_none _ hfind2x, tblFind_singleton_self]
          · rw [hallocs, countKey_append, countKey_eq_zero_of_find_none hfind2x,
              countKey_singleton_self]
          · intro hqp
            rw [hallocs, countKey_append,
              countKey_eq_zero_of_find_none (tblFind_tblRemove_self hnodup),
              countKey_singleton_ne hqp]
          · have hlen := length_tblRemove hfind
            rw [hallocs, List.length_append, List.length_singleton]
            omega

/-- A BYTES-level tracer holding one live 5-byte allocation at address 1. -/
def reallocBeforeTracer : alloc_tracer :=
  { allocator := 2, system_allocator := 1, level := .AWS_MEMTRACE_BYTES,
    frames_per_stack := 0, allocated := 5,
    allocs := [(1, { size := 5, time := 0, stack := 0, allocatedFrom := 1 })],
    stacksTable := [] }

/-- The state after reallocating that entry to 7 bytes at the moved address 2. -/
def reallocAfterTracer : alloc_tracer :=
  { allocator := 2, system_allocator := 1, level := .AWS_MEMTRACE_BYTES,
    frames_per_stack := 0, allocated := 7,
    allocs := [(2, { size := 7, time := 11, stack := 0, allocatedFrom := 1 })],
    stacksTable := [] }

theorem realloc_conservation_witness :
    ((aws_mem_tracer_bytes reallocAfterTracer : Int)
        - (aws_mem_tracer_bytes reallocBeforeTracer : Int) = (7 : Int) - (5 : Int))
    ∧ (∃ r, tblFind reallocAfterTracer.allocs 2 = some r ∧ r.size = 7
        ∧ countKey reallocAfterTracer.allocs 2 = 1
        ∧ ((2 : Nat) ≠ 1 → countKey reallocAfterTracer.allocs 1 = 0)
        ∧ reallocAfterTracer.allocs.length = reallocBeforeTracer.allocs.length) :=
  @realloc_conservation Nat counterAlloc reallocBeforeTracer 1 1 5 7 11 0 []
    { size := 5, time := 0, stack := 0, allocatedFrom := 1 } reallocAfterTracer 2 2
    (by decide) (by decide) (by decide) (by unfold keysNodup; decide) (by decide)
    (by decide) (by decide)

/-- C6: a façade constructed at level NONE is a transparent pass-through: for
every inner allocator U and every acquire / zeroed-acquire / release /
reallocate sequence it never aborts, returns exactly the addresses U returns
for the same sequence run directly against U, drives U through the identical
state, leaves the tracer state untouched at every step, and the live-bytes
query on the façade returns 0. -/
theorem none_level_passthrough {σ : Type} (U : aws_allocator σ) (s0 : σ)
    (A D fps : Nat) (B : Option Nat) (bt : Bool) (ops : List ClientOp) :
    runFacade U (aws_mem_tracer_new A B D .AWS_MEMTRACE_NONE fps bt, s0) ops
      = some ((aws_mem_tracer_new A B D .AWS_MEMTRACE_NONE fps bt,
          (runInner U s0 ops).1), (runInner U s0 ops).2)
    ∧ aws_mem_tracer_bytes (aws_mem_tracer_new A B D .AWS_MEMTRACE_NONE fps bt) = 0 := by
  constructor
  · exact runFacade_none_level U _ (by cases bt <;> rfl) ops s0
  · rfl

end Memtrace
